import Mathlib

/-!
# Verification of the `resonite-core` animation codec (AnimJ / AnimX)

A shallow embedding of `src/animation/mod.rs` and `src/animation/types.rs`:
byte streams are `List Nat` (each element one byte), Rust machine integers and
IEEE floats are carried as their little-endian bit patterns (`Nat`), Rust
`String`s are their UTF-8 byte lists, and the stateful `AnimXReader` is a
state-passing function over the unconsumed suffix of the stream.  Panics
(`expect`, `todo!`, `unreachable!`) are modelled as explicit failure values.
-/

set_option maxRecDepth 4000

deriving instance DecidableEq for Except

namespace ResoniteCore

/-- The error enum of the binary decoder (`enum AnimXError`, animation/mod.rs).
`IoError` and `FromUtf8Error` payloads are dropped; `panicUnreachable` stands
for the `unreachable!()` arm in `from_animx` (a panic, not an `AnimXError`
value in the source; it is never produced, see `readTrack`). -/
inductive AnimXError where
  | incorrectHeader
  | unsupportedVersion
  | unsupportedEncoding
  | incorrectTrackType
  | incorrectValueType
  | incorrectInterpolationType
  | ioError
  | fromUtf8Error
  | panicUnreachable
deriving DecidableEq

/-- A reader over a byte stream (`struct AnimXReader<R>`): the state is the
unconsumed suffix of the stream; an error also carries the suffix left
unconsumed at the moment the error was raised. -/
def Reader (α : Type) : Type := List Nat → Except (AnimXError × List Nat) (α × List Nat)

/-- Sequencing of reads (the `?` operator in the Rust source). -/
def rbind {α β : Type} (m : Reader α) (f : α → Reader β) : Reader β := fun s =>
  match m s with
  | .ok (a, s1) => f a s1
  | .error e => .error e

def pureR {α : Type} (a : α) : Reader α := fun s => .ok (a, s)

def throwR {α : Type} (e : AnimXError) : Reader α := fun s => .error (e, s)

/-- `if !cond { Err(e)? }` as it appears in `from_animx`. -/
def require (cond : Bool) (e : AnimXError) : Reader Unit := fun s =>
  if cond then .ok ((), s) else .error (e, s)

/-- `Option::ok_or` / `map_err` over a `TryFrom` result. -/
def liftOpt {α : Type} (o : Option α) (e : AnimXError) : Reader α := fun s =>
  match o with
  | some a => .ok (a, s)
  | none => .error (e, s)

/-- `AnimXReader::read_u8`. -/
def readU8 : Reader Nat := fun s =>
  match s with
  | [] => .error (.ioError, [])
  | b :: r => .ok (b, r)

/-- `AnimXReader::read_bytes` / `read_into` (`read_exact`: fail if fewer
bytes are available). -/
def readBytes (k : Nat) : Reader (List Nat) := fun s =>
  if k ≤ s.length then .ok (s.take k, s.drop k) else .error (.ioError, s)

/-- `from_le_bytes` on a little-endian byte list. -/
def wordOfLe : List Nat → Nat
  | [] => 0
  | b :: r => b + 256 * wordOfLe r

/-- A `k`-byte little-endian field read (`read_i32`, `read_f32`, and the
fixed-width `ReadBytes` impls of types.rs); the value is its bit pattern. -/
def readWord (k : Nat) : Reader Nat :=
  rbind (readBytes k) (fun bs => pureR (wordOfLe bs))

/-- `AnimXReader::read_bool`: one byte, `buf[0] == 1`. -/
def readBool : Reader Bool :=
  rbind readU8 (fun b => pureR (b == 1))

/-- The accumulation loop of `AnimXReader::read_varint`: read a byte; while its
continuation bit (0x80) is set, add its low 7 bits at the current shift and
continue; the final byte's low 7 bits are added at the last shift. -/
def readVarintLoop (shift data : Nat) : List Nat → Except (AnimXError × List Nat) (Nat × List Nat)
  | [] => .error (.ioError, [])
  | b :: r =>
    if b &&& 128 == 128 then readVarintLoop (shift + 7) (data + ((b &&& 127) <<< shift)) r
    else .ok (data + ((b &&& 127) <<< shift), r)

/-- `AnimXReader::read_varint`. -/
def readVarint : Reader Nat := fun s => readVarintLoop 0 0 s

/-- Body of `impl WriteBytes for VarInt` (types.rs) with explicit fuel: while
the value exceeds 127 emit its low 7 bits with the continuation bit (0x80)
set and shift right by 7, then emit the final byte.  The loop strictly shrinks
the value (division by 128), so the initial value itself bounds the iteration
count and the fuel never runs out (see `writeVarintFuel_irrel`). -/
def writeVarintFuel : Nat → Nat → List Nat
  | 0, value => [value]
  | fuel + 1, value =>
    if value > 127 then ((value &&& 127) ||| 128) :: writeVarintFuel fuel (value >>> 7)
    else [value]

/-- `impl WriteBytes for VarInt` (types.rs). -/
def writeVarint (value : Nat) : List Nat := writeVarintFuel value value

/-- Little-endian bytes of a `k`-byte integer (`to_le_bytes`). -/
def writeWord : Nat → Nat → List Nat
  | 0, _ => []
  | k + 1, w => (w % 256) :: writeWord k (w / 256)

/-- `impl WriteBytes for String`: varint byte length, then the bytes. -/
def writeString (s : List Nat) : List Nat := writeVarint s.length ++ s

/-- `impl WriteBytes for Option<T>`: present-or-default (here for header
strings: an absent string is written as the empty string). -/
def writeOptString (s : Option (List Nat)) : List Nat := writeString (s.getD [])

/-- For a UTF-8 lead byte, the admissible ranges of the following continuation
bytes (RFC 3629, as enforced by Rust's `String::from_utf8`); `none` for an
invalid lead byte. -/
def utf8Follow (b : Nat) : Option (List (Nat × Nat)) :=
  if b ≤ 0x7F then some []
  else if 0xC2 ≤ b ∧ b ≤ 0xDF then some [(0x80, 0xBF)]
  else if b = 0xE0 then some [(0xA0, 0xBF), (0x80, 0xBF)]
  else if 0xE1 ≤ b ∧ b ≤ 0xEC then some [(0x80, 0xBF), (0x80, 0xBF)]
  else if b = 0xED then some [(0x80, 0x9F), (0x80, 0xBF)]
  else if 0xEE ≤ b ∧ b ≤ 0xEF then some [(0x80, 0xBF), (0x80, 0xBF)]
  else if b = 0xF0 then some [(0x90, 0xBF), (0x80, 0xBF), (0x80, 0xBF)]
  else if 0xF1 ≤ b ∧ b ≤ 0xF3 then some [(0x80, 0xBF), (0x80, 0xBF), (0x80, 0xBF)]
  else if b = 0xF4 then some [(0x80, 0x8F), (0x80, 0xBF), (0x80, 0xBF)]
  else none

/-- UTF-8 validation automaton: `expected` is the list of ranges the next
bytes must fall into to finish the current code point. -/
def utf8Valid : List Nat → List (Nat × Nat) → Bool
  | [], [] => true
  | [], _ :: _ => false
  | b :: r, [] =>
    match utf8Follow b with
    | some ranges => utf8Valid r ranges
    | none => false
  | b :: r, (lo, hi) :: ranges => lo ≤ b && b ≤ hi && utf8Valid r ranges

/-- The validity check performed by `String::from_utf8` (the only way
`read_string` can fail after its bytes are available). -/
def isValidUtf8 (s : List Nat) : Bool := utf8Valid s []

/-- `AnimXReader::read_string`: varint length, that many bytes, UTF-8 check.
A Rust `String` is modelled as its UTF-8 byte list. -/
def readString : Reader (List Nat) :=
  rbind readVarint (fun len =>
  rbind (readBytes len) (fun bs =>
  rbind (require (isValidUtf8 bs) .fromUtf8Error) (fun _ =>
  pureR bs)))

/-- `AnimXReader::read_nullable_string`: presence byte, then a string. -/
def readNullableString : Reader (Option (List Nat)) :=
  rbind readBool (fun b =>
  if b then rbind readString (fun s => pureR (some s)) else pureR none)

/-- `enum TrackType` (types.rs), in Rust declaration order. -/
inductive TrackType where
  | Raw
  | Discrete
  | Curve
  | Bezier
deriving DecidableEq

/-- `TrackType as u8`: the discriminant is the declaration position. -/
def trackTypeDiscr : TrackType → Nat
  | .Raw => 0
  | .Discrete => 1
  | .Curve => 2
  | .Bezier => 3

/-- `impl TryFrom<u8> for TrackType` (types.rs): only 0, 1, 2 are accepted. -/
def trackTypeOfTag : Nat → Option TrackType
  | 0 => some .Raw
  | 1 => some .Discrete
  | 2 => some .Curve
  | _ => none

/-- `enum ValueType` (types.rs), in Rust declaration order (the order of the
`enum` declaration, which fixes the `as u8` discriminants). -/
inductive ValueType where
  | Bool
  | Bool2
  | Bool3
  | Bool4
  | Byte
  | Ushort
  | Uint
  | Ulong
  | Sbyte
  | Short
  | Int
  | Long
  | Int2
  | Int3
  | Int4
  | Uint2
  | Uint3
  | Uint4
  | Long2
  | Long3
  | Long4
  | Float
  | Float2
  | Float3
  | Float4
  | FloatQ
  | Float2x2
  | Float3x3
  | Float4x4
  | Double
  | Double2
  | Double3
  | Double4
  | DoubleQ
  | Double2x2
  | Double3x3
  | Double4x4
  | Color
  | Color32
  | OptString
deriving DecidableEq

/-- `ValueType as u8` (used by `impl WriteBytes for ValueType` and by
`Track::write`): the discriminant is the position in the Rust declaration. -/
def valueTypeDiscr : ValueType → Nat
  | .Bool => 0
  | .Bool2 => 1
  | .Bool3 => 2
  | .Bool4 => 3
  | .Byte => 4
  | .Ushort => 5
  | .Uint => 6
  | .Ulong => 7
  | .Sbyte => 8
  | .Short => 9
  | .Int => 10
  | .Long => 11
  | .Int2 => 12
  | .Int3 => 13
  | .Int4 => 14
  | .Uint2 => 15
  | .Uint3 => 16
  | .Uint4 => 17
  | .Long2 => 18
  | .Long3 => 19
  | .Long4 => 20
  | .Float => 21
  | .Float2 => 22
  | .Float3 => 23
  | .Float4 => 24
  | .FloatQ => 25
  | .Float2x2 => 26
  | .Float3x3 => 27
  | .Float4x4 => 28
  | .Double => 29
  | .Double2 => 30
  | .Double3 => 31
  | .Double4 => 32
  | .DoubleQ => 33
  | .Double2x2 => 34
  | .Double3x3 => 35
  | .Double4x4 => 36
  | .Color => 37
  | .Color32 => 38
  | .OptString => 39

/-- `impl TryFrom<u8> for ValueType` (types.rs): the `metamatch` enumerate
list, i.e. the canonical wire ordering `Byte, Ushort, Ulong, Sbyte, Short,
Bool, ..., OptString`. -/
def valueTypeOfTag : Nat → Option ValueType
  | 0 => some .Byte
  | 1 => some .Ushort
  | 2 => some .Ulong
  | 3 => some .Sbyte
  | 4 => some .Short
  | 5 => some .Bool
  | 6 => some .Bool2
  | 7 => some .Bool3
  | 8 => some .Bool4
  | 9 => some .Int
  | 10 => some .Int2
  | 11 => some .Int3
  | 12 => some .Int4
  | 13 => some .Uint
  | 14 => some .Uint2
  | 15 => some .Uint3
  | 16 => some .Uint4
  | 17 => some .Long
  | 18 => some .Long2
  | 19 => some .Long3
  | 20 => some .Long4
  | 21 => some .Float
  | 22 => some .Float2
  | 23 => some .Float3
  | 24 => some .Float4
  | 25 => some .FloatQ
  | 26 => some .Float2x2
  | 27 => some .Float3x3
  | 28 => some .Float4x4
  | 29 => some .Double
  | 30 => some .Double2
  | 31 => some .Double3
  | 32 => some .Double4
  | 33 => some .DoubleQ
  | 34 => some .Double2x2
  | 35 => some .Double3x3
  | 36 => some .Double4x4
  | 37 => some .Color
  | 38 => some .Color32
  | 39 => some .OptString
  | _ => none

/-- `enum Interpolation` (mod.rs), declaration order = discriminants =
`TryFrom<u8>` tags (Hold=0, Linear=1, Tangent=2, CubicBezier=3). -/
inductive Interpolation where
  | Hold
  | Linear
  | Tangent
  | CubicBezier
deriving DecidableEq

/-- `Interpolation as u8`. -/
def interpDiscr : Interpolation → Nat
  | .Hold => 0
  | .Linear => 1
  | .Tangent => 2
  | .CubicBezier => 3

/-- `impl TryFrom<u8> for Interpolation`. -/
def interpOfTag : Nat → Option Interpolation
  | 0 => some .Hold
  | 1 => some .Linear
  | 2 => some .Tangent
  | 3 => some .CubicBezier
  | _ => none

/-- A value of one of the registry kinds.  Numeric values are carried as their
little-endian bit patterns together with their byte width (the width is
determined by the Rust element type); `vec` holds vector components in x,y,z,w
order, `mat` holds row-major rows. -/
inductive Value where
  | bool (b : Bool)
  | bool2 (x y : Bool)
  | bool3 (x y z : Bool)
  | bool4 (x y z w : Bool)
  | scalar (width : Nat) (bits : Nat)
  | vec (width : Nat) (comps : List Nat)
  | mat (width : Nat) (rows : List (List Nat))
  | color (r g b a : Nat)
  | color32 (r g b a : Nat)
  | optString (bytes : List Nat)
deriving DecidableEq

/-- `if b {1} else {0}`. -/
def boolByte (b : Bool) : Nat := if b then 1 else 0

/-- The `WriteBytes` impls of types.rs, one match arm per impl:
`Bool` one byte 0/1; `Bool2/3/4` one byte with bit i = component i;
fixed-width numerics `to_le_bytes`; vectors component-wise; matrices row by
row; `Color` four f32, `Color32` four bytes; `OptString` a presence byte then
a length-prefixed string (nothing further when empty). -/
def writeValue : Value → List Nat
  | .bool b => [boolByte b]
  | .bool2 x y => [boolByte x ||| (if y then 2 else 0)]
  | .bool3 x y z => [boolByte x ||| (if y then 2 else 0) ||| (if z then 4 else 0)]
  | .bool4 x y z w =>
    [boolByte x ||| (if y then 2 else 0) ||| (if z then 4 else 0) ||| (if w then 8 else 0)]
  | .scalar width bits => writeWord width bits
  | .vec width comps => comps.flatMap (writeWord width)
  | .mat width rows => rows.flatMap (fun row => row.flatMap (writeWord width))
  | .color r g b a => writeWord 4 r ++ writeWord 4 g ++ writeWord 4 b ++ writeWord 4 a
  | .color32 r g b a => writeWord 1 r ++ writeWord 1 g ++ writeWord 1 b ++ writeWord 1 a
  | .optString s =>
    if s.length = 0 then [0] else [1] ++ writeVarint s.length ++ s

/-- `byte >> i & 1 == 1` (the `ReadBytes` impls for `Bool2/3/4`). -/
def bitOf (b i : Nat) : Bool := (b >>> i) &&& 1 == 1

/-- A counted loop of reads (`for _ in 0..n { ... }` pushing into a `Vec`). -/
def readCount {α : Type} : Nat → Reader α → Reader (List α)
  | 0, _ => pureR []
  | n + 1, m => rbind m (fun a => rbind (readCount n m) (fun as => pureR (a :: as)))

/-- `n` components of `width` bytes each (vector `ReadBytes` impls). -/
def readVecN (width n : Nat) : Reader Value :=
  rbind (readCount n (readWord width)) (fun cs => pureR (.vec width cs))

/-- `n × n` scalars of `width` bytes (matrix `ReadBytes` impls, row-major). -/
def readMatN (width n : Nat) : Reader Value :=
  rbind (readCount n (readCount n (readWord width))) (fun rows => pureR (.mat width rows))

/-- The `ReadBytes` impls of types.rs, dispatched by `ValueType` exactly as the
`metamatch` expansions in `from_animx` instantiate them. -/
def readValue : ValueType → Reader Value
  | .Bool => rbind readBool (fun b => pureR (.bool b))
  | .Bool2 => rbind readU8 (fun b => pureR (.bool2 (bitOf b 0) (bitOf b 1)))
  | .Bool3 => rbind readU8 (fun b => pureR (.bool3 (bitOf b 0) (bitOf b 1) (bitOf b 2)))
  | .Bool4 => rbind readU8 (fun b => pureR (.bool4 (bitOf b 0) (bitOf b 1) (bitOf b 2) (bitOf b 3)))
  | .Byte => rbind (readWord 1) (fun w => pureR (.scalar 1 w))
  | .Ushort => rbind (readWord 2) (fun w => pureR (.scalar 2 w))
  | .Uint => rbind (readWord 4) (fun w => pureR (.scalar 4 w))
  | .Ulong => rbind (readWord 8) (fun w => pureR (.scalar 8 w))
  | .Sbyte => rbind (readWord 1) (fun w => pureR (.scalar 1 w))
  | .Short => rbind (readWord 2) (fun w => pureR (.scalar 2 w))
  | .Int => rbind (readWord 4) (fun w => pureR (.scalar 4 w))
  | .Long => rbind (readWord 8) (fun w => pureR (.scalar 8 w))
  | .Int2 => readVecN 4 2
  | .Int3 => readVecN 4 3
  | .Int4 => readVecN 4 4
  | .Uint2 => readVecN 4 2
  | .Uint3 => readVecN 4 3
  | .Uint4 => readVecN 4 4
  | .Long2 => readVecN 8 2
  | .Long3 => readVecN 8 3
  | .Long4 => readVecN 8 4
  | .Float => rbind (readWord 4) (fun w => pureR (.scalar 4 w))
  | .Float2 => readVecN 4 2
  | .Float3 => readVecN 4 3
  | .Float4 => readVecN 4 4
  | .FloatQ => readVecN 4 4
  | .Float2x2 => readMatN 4 2
  | .Float3x3 => readMatN 4 3
  | .Float4x4 => readMatN 4 4
  | .Double => rbind (readWord 8) (fun w => pureR (.scalar 8 w))
  | .Double2 => readVecN 8 2
  | .Double3 => readVecN 8 3
  | .Double4 => readVecN 8 4
  | .DoubleQ => readVecN 8 4
  | .Double2x2 => readMatN 8 2
  | .Double3x3 => readMatN 8 3
  | .Double4x4 => readMatN 8 4
  | .Color =>
    rbind (readWord 4) (fun r =>
    rbind (readWord 4) (fun g =>
    rbind (readWord 4) (fun b =>
    rbind (readWord 4) (fun a =>
    pureR (.color r g b a)))))
  | .Color32 =>
    rbind (readWord 1) (fun r =>
    rbind (readWord 1) (fun g =>
    rbind (readWord 1) (fun b =>
    rbind (readWord 1) (fun a =>
    pureR (.color32 r g b a)))))
  | .OptString =>
    rbind readNullableString (fun s => pureR (.optString (s.getD [])))

/-- `struct CurveKeyframe<T>` (mod.rs): time (f32 bit pattern), value,
interpolation, optional tangent pair. -/
structure CurveKF where
  time : Nat
  value : Value
  interpolation : Interpolation
  leftTangent : Option Value
  rightTangent : Option Value
deriving DecidableEq

/-- The three keyframe-set shapes `RawData<T>` / `DiscreteData<T>` /
`CurveData<T>` (mod.rs); discrete keyframes are (time, value) pairs. -/
inductive TrackData where
  | raw (node property : Option (List Nat)) (interval : Option Nat) (keyframes : List Value)
  | discrete (node property : Option (List Nat)) (keyframes : List (Nat × Value))
  | curve (node property : Option (List Nat)) (keyframes : List CurveKF)
deriving DecidableEq

/-- `struct Track<T>` (mod.rs). -/
structure Track where
  trackType : TrackType
  valueType : ValueType
  data : TrackData
deriving DecidableEq

/-- `struct Animation` (mod.rs); `Animation::default()` is
`⟨none, none, []⟩`. -/
structure Animation where
  name : Option (List Nat)
  globalDuration : Option Nat
  tracks : List Track
deriving DecidableEq

/-- `impl WriteBytes for RawData<T>`: node and property strings
(present-or-default), frame-count varint, interval f32 (present-or-default),
then the keyframe values. -/
def writeRawData (node property : Option (List Nat)) (interval : Option Nat)
    (kfs : List Value) : List Nat :=
  writeOptString node ++ writeOptString property ++ writeVarint kfs.length ++
    writeWord 4 (interval.getD 0) ++ kfs.flatMap writeValue

/-- `impl WriteBytes for DiscreteData<T>`: node, property, frame-count varint,
then (time, value) per keyframe (`DiscreteKeyframe::write`). -/
def writeDiscreteData (node property : Option (List Nat))
    (kfs : List (Nat × Value)) : List Nat :=
  writeOptString node ++ writeOptString property ++ writeVarint kfs.length ++
    kfs.flatMap (fun kf => writeWord 4 kf.1 ++ writeValue kf.2)

/-- `CurveData::write`'s `interpolation` local: the first keyframe's
interpolation, `Hold` for an empty set. -/
def curveHeadInterpolation (kfs : List CurveKF) : Interpolation :=
  (kfs.head?.map (fun k => k.interpolation)).getD .Hold

/-- `CurveData::write`'s info byte: seeded with 0x1 already set, then per
keyframe `info |= 0x1` when the interpolation differs from the first one and
`info |= interpolation as u8 & 0x2`. -/
def curveInfoByte (kfs : List CurveKF) : Nat :=
  kfs.foldl
    (fun info k =>
      (if k.interpolation ≠ curveHeadInterpolation kfs then info ||| 1 else info) |||
        (interpDiscr k.interpolation &&& 2))
    1

/-- The tangent block of `CurveData::write`: left then right tangent bytes per
keyframe; `none` models the `expect` panic when a demanded tangent is absent. -/
def curveTangentBytes : List CurveKF → Option (List Nat)
  | [] => some []
  | k :: rest =>
    match k.leftTangent, k.rightTangent, curveTangentBytes rest with
    | some l, some r, some t => some (writeValue l ++ writeValue r ++ t)
    | _, _, _ => none

/-- `impl WriteBytes for CurveData<T>`: node, property, frame-count varint,
info byte; per-keyframe interpolation tags when bit 0 of the info byte is set,
otherwise one shared tag; then (time, value) per keyframe
(`CurveKeyframe::write`); then the tangent block when bit 1 is set.  `none`
models the `expect` panic on a missing demanded tangent. -/
def writeCurveData (node property : Option (List Nat))
    (kfs : List CurveKF) : Option (List Nat) :=
  let interpolation := curveHeadInterpolation kfs
  let info := curveInfoByte kfs
  let head := writeOptString node ++ writeOptString property ++
    writeVarint kfs.length ++ [info]
  let tags :=
    if info &&& 1 == 1 then kfs.map (fun k => interpDiscr k.interpolation)
    else [interpDiscr interpolation]
  let body := kfs.flatMap (fun k => writeWord 4 k.time ++ writeValue k.value)
  if info &&& 2 == 2 then
    match curveTangentBytes kfs with
    | some tb => some (head ++ tags ++ body ++ tb)
    | none => none
  else some (head ++ tags ++ body)

/-- The curve encoder with the interpolation-tag branch resolved to the
per-keyframe form (one tag byte per frame, unconditionally); used to state
that `writeCurveData` never takes the single-shared-tag branch. -/
def writeCurveDataPerFrame (node property : Option (List Nat))
    (kfs : List CurveKF) : Option (List Nat) :=
  let info := curveInfoByte kfs
  let head := writeOptString node ++ writeOptString property ++
    writeVarint kfs.length ++ [info]
  let tags := kfs.map (fun k => interpDiscr k.interpolation)
  let body := kfs.flatMap (fun k => writeWord 4 k.time ++ writeValue k.value)
  if info &&& 2 == 2 then
    match curveTangentBytes kfs with
    | some tb => some (head ++ tags ++ body ++ tb)
    | none => none
  else some (head ++ tags ++ body)

/-- Body dispatch of a track's `WriteBytes` (the `data.write(write)` call). -/
def writeTrackData : TrackData → Option (List Nat)
  | .raw n p iv ks => some (writeRawData n p iv ks)
  | .discrete n p ks => some (writeDiscreteData n p ks)
  | .curve n p ks => writeCurveData n p ks

/-- `impl WriteBytes for Track<T>`: the two tag bytes
`[track_type as u8, value_type as u8]`, then the body. -/
def writeTrack (t : Track) : Option (List Nat) :=
  (writeTrackData t.data).map
    (fun body => trackTypeDiscr t.trackType :: valueTypeDiscr t.valueType :: body)

/-- The `for track in &self.tracks` loop of `write_contents`. -/
def writeTracks : List Track → Option (List Nat)
  | [] => some []
  | t :: ts =>
    match writeTrack t, writeTracks ts with
    | some b, some r => some (b ++ r)
    | _, _ => none

/-- The UTF-8 bytes of the magic header string "AnimX". -/
def magicBytes : List Nat := [65, 110, 105, 109, 88]

/-- `Animation::write_contents` (the body of `write_animx`): magic string,
version 1 as a 4-byte little-endian integer, track-count varint, global
duration f32 (present-or-default), name string (present-or-default), the 0x00
encoding flag, then the tracks.  `none` models a panic inside a curve body. -/
def writeAnimation (a : Animation) : Option (List Nat) :=
  (writeTracks a.tracks).map
    (fun tb =>
      writeString magicBytes ++ writeWord 4 1 ++ writeVarint a.tracks.length ++
        writeWord 4 (a.globalDuration.getD 0) ++ writeOptString a.name ++ [0] ++ tb)

/-- A (time f32, value) pair as read in the Discrete and Curve loops. -/
def readTimeValue (vt : ValueType) : Reader (Nat × Value) :=
  rbind (readWord 4) (fun t =>
  rbind (readValue vt) (fun v =>
  pureR (t, v)))

/-- A (left tangent, right tangent) pair as read in the Curve tangent loop. -/
def readTangentPair (vt : ValueType) : Reader (Value × Value) :=
  rbind (readValue vt) (fun l =>
  rbind (readValue vt) (fun r =>
  pureR (l, r)))

/-- One interpolation tag byte
(`Interpolation::try_from(read_u8()?)` with `IncorrectInterpolationType`). -/
def readInterp : Reader Interpolation :=
  rbind readU8 (fun b => liftOpt (interpOfTag b) .incorrectInterpolationType)

/-- One per-track record of `Animation::from_animx`: track-type tag byte,
value-type tag byte, node, property, frame-count varint, then the body by
track kind.  In the Curve body the interpolation index `if info.x {i} else
{0}` is always in bounds, so the `getD .Hold` default is never used; the
`Bezier` arm models the `unreachable!()` (never hit: `trackTypeOfTag` never
returns `Bezier`). -/
def readTrack : Reader Track :=
  rbind readU8 (fun tb =>
  rbind (liftOpt (trackTypeOfTag tb) .incorrectTrackType) (fun tt =>
  rbind readU8 (fun vb =>
  rbind (liftOpt (valueTypeOfTag vb) .incorrectValueType) (fun vt =>
  rbind readString (fun node =>
  rbind readString (fun property =>
  rbind readVarint (fun frames =>
  match tt with
  | .Raw =>
    rbind (readWord 4) (fun iv =>
    rbind (readCount frames (readValue vt)) (fun ks =>
    pureR ⟨tt, vt, .raw (some node) (some property) (some iv) ks⟩))
  | .Discrete =>
    rbind (readCount frames (readTimeValue vt)) (fun ks =>
    pureR ⟨tt, vt, .discrete (some node) (some property) ks⟩)
  | .Curve =>
    rbind readU8 (fun infoByte =>
    rbind (readCount (if bitOf infoByte 0 then frames else 1) readInterp) (fun interps =>
    rbind (readCount frames (readTimeValue vt)) (fun tvs =>
    rbind
      (if bitOf infoByte 1 then
        rbind (readCount frames (readTangentPair vt)) (fun ps => pureR (some ps))
      else pureR none)
      (fun tangs =>
    let kfs := tvs.mapIdx (fun i tv =>
      CurveKF.mk tv.1 tv.2 (interps.getD (if bitOf infoByte 0 then i else 0) .Hold) none none)
    let kfs :=
      match tangs with
      | some ps =>
        List.zipWith
          (fun (kf : CurveKF) (p : Value × Value) =>
            { kf with leftTangent := some p.1, rightTangent := some p.2 })
          kfs ps
      | none => kfs
    pureR ⟨tt, vt, .curve (some node) (some property) kfs⟩))))
  | .Bezier => throwR .panicUnreachable)))))))

/-- A one-keyframe Raw track of ValueKind `Byte` inside an otherwise empty
animation (the failing input for the value-tag claim). -/
def byteTrackAnim : Animation :=
  ⟨some [], some 0, [⟨.Raw, .Byte, .raw (some []) (some []) (some 0) [.scalar 1 7]⟩]⟩

/-- Two Hold-interpolation curve keyframes where exactly the second lacks its
tangent pair (the first carries one). -/
def mixedTangentKfs : List CurveKF :=
  [⟨0, .scalar 4 5, .Hold, some (.scalar 4 1), some (.scalar 4 2)⟩,
   ⟨1, .scalar 4 6, .Hold, none, none⟩]

/-- UTF-8 bytes of an ASCII string literal (all keys and tag names used by the
document format are ASCII). -/
def ascii (s : String) : List Nat := s.data.map Char.toNat

/-- A JSON number as delivered by the document-parsing library.  Modelled from
the spec: numeric conversion to the target widths is kept abstract — `asInt`
is the number's integral value when it has one (used by the integer kinds,
which range-check it), `f32bits` and `f64bits` are its value converted to a
32-bit or 64-bit float, carried as bit patterns. -/
structure JNum where
  asInt : Option Int
  f32bits : Nat
  f64bits : Nat

/-- A parsed document tree (`serde_json::Value`): the generic structured value
the Document Decoder walks.  Object fields are an ordered key/value list. -/
inductive Json where
  | null
  | bool (b : Bool)
  | num (n : JNum)
  | str (s : List Nat)
  | arr (elements : List Json)
  | obj (fields : List (List Nat × Json))

/-- Outcome of a document decode: a value, a decode error (any
`serde::de::Error`, message dropped), or a panic (`todo!` — not an error
value). -/
inductive DocResult (α : Type) where
  | ok (value : α)
  | error
  | panic
deriving DecidableEq

/-- First binding of a field name in an object (the map visit of the derived
deserializers; duplicate keys are not modelled — the documents of interest
bind each key once). -/
def findField (key : List Nat) : List (List Nat × Json) → Option Json
  | [] => none
  | (k, v) :: rest => if k = key then some v else findField key rest

/-- A JSON string (`String` deserialization accepts only strings). -/
def jsonString : Json → Option (List Nat)
  | .str s => some s
  | _ => none

/-- A JSON boolean. -/
def jsonBool : Json → Option Bool
  | .bool b => some b
  | _ => none

/-- `f32` from a JSON number. -/
def jsonF32 : Json → Option Nat
  | .num n => some n.f32bits
  | _ => none

/-- `f64` from a JSON number. -/
def jsonF64 : Json → Option Nat
  | .num n => some n.f64bits
  | _ => none

/-- A bounded integer kind from a JSON number (the serde integer
deserializers range-check); the result is the value's `width`-byte two's
complement bit pattern. -/
def jsonIntBits (lo hi : Int) (width : Nat) : Json → Option Nat
  | .num n =>
    match n.asInt with
    | some i => if lo ≤ i ∧ i ≤ hi then some (Int.toNat (i.emod (2 ^ (8 * width)))) else none
    | none => none
  | _ => none

/-- An optional field (serde `Option<T>`): missing or `null` is `None`. -/
def optField {α : Type} (parse : Json → Option α) (fs : List (List Nat × Json))
    (key : List Nat) : Option (Option α) :=
  match findField key fs with
  | none => some none
  | some .null => some none
  | some v => (parse v).map some

/-- The x,y,z,w field names of the vector structs. -/
def fieldKeysXYZW : List (List Nat) := [ascii "x", ascii "y", ascii "z", ascii "w"]

/-- Modelled from the spec: the derived deserializer of an `n`-component
vector struct (`Float2`, `Int3`, ... — generated code, not in src/): an object
with required fields x,y(,z,w), each of the base scalar kind. -/
def vecFromJson (base : Json → Option Nat) (n : Nat) : Json → Option (List Nat)
  | .obj fs => (fieldKeysXYZW.take n).mapM (fun k => findField k fs >>= base)
  | _ => none

/-- Modelled from the spec: one row of a matrix (`[T; n]`): an array of
exactly `n` base scalars. -/
def rowFromJson (base : Json → Option Nat) (n : Nat) : Json → Option (List Nat)
  | .arr xs => if xs.length = n then xs.mapM base else none
  | _ => none

/-- Modelled from the spec: a matrix (`[[T; n]; n]`): an array of exactly `n`
rows. -/
def matFromJson (base : Json → Option Nat) (n : Nat) : Json → Option (List (List Nat))
  | .arr rows => if rows.length = n then rows.mapM (rowFromJson base n) else none
  | _ => none

/-- The r,g,b,a field names of the color structs. -/
def fieldKeysRGBA : List (List Nat) := [ascii "r", ascii "g", ascii "b", ascii "a"]

/-- Modelled from the spec: the derived deserializer of the color structs
(types.rs `quote!` expansion): an object with required fields r,g,b,a. -/
def colorFromJson (base : Json → Option Nat) : Json → Option (List Nat)
  | .obj fs => fieldKeysRGBA.mapM (fun k => findField k fs >>= base)
  | _ => none

/-- Modelled from the spec: the derived deserializer of the `Bool2/3/4`
structs: an object with required boolean fields x,y(,z,w). -/
def boolsFromJson (n : Nat) : Json → Option (List Bool)
  | .obj fs => (fieldKeysXYZW.take n).mapM (fun k => findField k fs >>= jsonBool)
  | _ => none

/-- Modelled from the spec: one keyframe value of each ValueKind as the
derived deserializers accept it (`#[serde(rename_all = "lowercase")]` names
are handled by `valueTypeFromName`; here the per-kind value shapes). -/
def valueFromJson : ValueType → Json → Option Value
  | .Bool, j => (jsonBool j).map .bool
  | .Bool2, j =>
    match boolsFromJson 2 j with
    | some [x, y] => some (.bool2 x y)
    | _ => none
  | .Bool3, j =>
    match boolsFromJson 3 j with
    | some [x, y, z] => some (.bool3 x y z)
    | _ => none
  | .Bool4, j =>
    match boolsFromJson 4 j with
    | some [x, y, z, w] => some (.bool4 x y z w)
    | _ => none
  | .Byte, j => (jsonIntBits 0 255 1 j).map (.scalar 1)
  | .Ushort, j => (jsonIntBits 0 65535 2 j).map (.scalar 2)
  | .Uint, j => (jsonIntBits 0 4294967295 4 j).map (.scalar 4)
  | .Ulong, j => (jsonIntBits 0 18446744073709551615 8 j).map (.scalar 8)
  | .Sbyte, j => (jsonIntBits (-128) 127 1 j).map (.scalar 1)
  | .Short, j => (jsonIntBits (-32768) 32767 2 j).map (.scalar 2)
  | .Int, j => (jsonIntBits (-2147483648) 2147483647 4 j).map (.scalar 4)
  | .Long, j => (jsonIntBits (-9223372036854775808) 9223372036854775807 8 j).map (.scalar 8)
  | .Int2, j => (vecFromJson (jsonIntBits (-2147483648) 2147483647 4) 2 j).map (.vec 4)
  | .Int3, j => (vecFromJson (jsonIntBits (-2147483648) 2147483647 4) 3 j).map (.vec 4)
  | .Int4, j => (vecFromJson (jsonIntBits (-2147483648) 2147483647 4) 4 j).map (.vec 4)
  | .Uint2, j => (vecFromJson (jsonIntBits 0 4294967295 4) 2 j).map (.vec 4)
  | .Uint3, j => (vecFromJson (jsonIntBits 0 4294967295 4) 3 j).map (.vec 4)
  | .Uint4, j => (vecFromJson (jsonIntBits 0 4294967295 4) 4 j).map (.vec 4)
  | .Long2, j =>
    (vecFromJson (jsonIntBits (-9223372036854775808) 9223372036854775807 8) 2 j).map (.vec 8)
  | .Long3, j =>
    (vecFromJson (jsonIntBits (-9223372036854775808) 9223372036854775807 8) 3 j).map (.vec 8)
  | .Long4, j =>
    (vecFromJson (jsonIntBits (-9223372036854775808) 9223372036854775807 8) 4 j).map (.vec 8)
  | .Float, j => (jsonF32 j).map (.scalar 4)
  | .Float2, j => (vecFromJson jsonF32 2 j).map (.vec 4)
  | .Float3, j => (vecFromJson jsonF32 3 j).map (.vec 4)
  | .Float4, j => (vecFromJson jsonF32 4 j).map (.vec 4)
  | .FloatQ, j => (vecFromJson jsonF32 4 j).map (.vec 4)
  | .Float2x2, j => (matFromJson jsonF32 2 j).map (.mat 4)
  | .Float3x3, j => (matFromJson jsonF32 3 j).map (.mat 4)
  | .Float4x4, j => (matFromJson jsonF32 4 j).map (.mat 4)
  | .Double, j => (jsonF64 j).map (.scalar 8)
  | .Double2, j => (vecFromJson jsonF64 2 j).map (.vec 8)
  | .Double3, j => (vecFromJson jsonF64 3 j).map (.vec 8)
  | .Double4, j => (vecFromJson jsonF64 4 j).map (.vec 8)
  | .DoubleQ, j => (vecFromJson jsonF64 4 j).map (.vec 8)
  | .Double2x2, j => (matFromJson jsonF64 2 j).map (.mat 8)
  | .Double3x3, j => (matFromJson jsonF64 3 j).map (.mat 8)
  | .Double4x4, j => (matFromJson jsonF64 4 j).map (.mat 8)
  | .Color, j =>
    match colorFromJson jsonF32 j with
    | some [r, g, b, a] => some (.color r g b a)
    | _ => none
  | .Color32, j =>
    match colorFromJson (jsonIntBits 0 255 1) j with
    | some [r, g, b, a] => some (.color32 r g b a)
    | _ => none
  | .OptString, j => (jsonString j).map .optString

/-- The derived deserializer of `enum TrackType` (no rename: the exact
variant names). -/
def trackTypeFromName (s : List Nat) : Option TrackType :=
  if s = ascii "Raw" then some .Raw
  else if s = ascii "Discrete" then some .Discrete
  else if s = ascii "Curve" then some .Curve
  else if s = ascii "Bezier" then some .Bezier
  else none

/-- The derived deserializer of `enum Interpolation` (exact variant names). -/
def interpFromName (s : List Nat) : Option Interpolation :=
  if s = ascii "Hold" then some .Hold
  else if s = ascii "Linear" then some .Linear
  else if s = ascii "Tangent" then some .Tangent
  else if s = ascii "CubicBezier" then some .CubicBezier
  else none

/-- The names accepted for `enum ValueType`
(`#[serde(rename_all = "lowercase")]`, with `OptString` renamed "string"). -/
def valueTypeNames : List (List Nat × ValueType) :=
  [(ascii "bool", .Bool), (ascii "bool2", .Bool2), (ascii "bool3", .Bool3),
   (ascii "bool4", .Bool4), (ascii "byte", .Byte), (ascii "ushort", .Ushort),
   (ascii "uint", .Uint), (ascii "ulong", .Ulong), (ascii "sbyte", .Sbyte),
   (ascii "short", .Short), (ascii "int", .Int), (ascii "long", .Long),
   (ascii "int2", .Int2), (ascii "int3", .Int3), (ascii "int4", .Int4),
   (ascii "uint2", .Uint2), (ascii "uint3", .Uint3), (ascii "uint4", .Uint4),
   (ascii "long2", .Long2), (ascii "long3", .Long3), (ascii "long4", .Long4),
   (ascii "float", .Float), (ascii "float2", .Float2), (ascii "float3", .Float3),
   (ascii "float4", .Float4), (ascii "floatq", .FloatQ), (ascii "float2x2", .Float2x2),
   (ascii "float3x3", .Float3x3), (ascii "float4x4", .Float4x4), (ascii "double", .Double),
   (ascii "double2", .Double2), (ascii "double3", .Double3), (ascii "double4", .Double4),
   (ascii "doubleq", .DoubleQ), (ascii "double2x2", .Double2x2),
   (ascii "double3x3", .Double3x3), (ascii "double4x4", .Double4x4),
   (ascii "color", .Color), (ascii "color32", .Color32), (ascii "string", .OptString)]

/-- Lookup of a name in an association list of byte-list keys. -/
def lookupBytes {α : Type} (key : List Nat) : List (List Nat × α) → Option α
  | [] => none
  | (k, v) :: rest => if k = key then some v else lookupBytes key rest

/-- The derived deserializer of `enum ValueType` from its tag string. -/
def valueTypeFromName (s : List Nat) : Option ValueType := lookupBytes s valueTypeNames

/-- `serde_json::from_value::<TrackInfo>` (mod.rs `struct TrackInfo` with its
`#[serde(rename)]` attributes): the `trackType` and `valueType` tag pair read
in the first pass over a track element. -/
def trackInfoFromJson : Json → Option (TrackType × ValueType)
  | .obj fs => do
    let tt ← findField (ascii "trackType") fs >>= jsonString >>= trackTypeFromName
    let vt ← findField (ascii "valueType") fs >>= jsonString >>= valueTypeFromName
    pure (tt, vt)
  | _ => none

/-- Modelled from the spec: the derived deserializer of
`DiscreteKeyframe<T>`: object with required `time` (f32) and `value`. -/
def discreteKFFromJson (vt : ValueType) : Json → Option (Nat × Value)
  | .obj fs => do
    let t ← findField (ascii "time") fs >>= jsonF32
    let v ← findField (ascii "value") fs >>= valueFromJson vt
    pure (t, v)
  | _ => none

/-- Modelled from the spec: the derived deserializer of `CurveKeyframe<T>`:
required `time`, `value`, `interpolation`; optional `leftTangent` /
`rightTangent`. -/
def curveKFFromJson (vt : ValueType) : Json → Option CurveKF
  | .obj fs => do
    let t ← findField (ascii "time") fs >>= jsonF32
    let v ← findField (ascii "value") fs >>= valueFromJson vt
    let interp ← findField (ascii "interpolation") fs >>= jsonString >>= interpFromName
    let lt ← optField (valueFromJson vt) fs (ascii "leftTangent")
    let rt ← optField (valueFromJson vt) fs (ascii "rightTangent")
    pure ⟨t, v, interp, lt, rt⟩
  | _ => none

/-- The `keyframes` field: a required array. -/
def keyframesField (fs : List (List Nat × Json)) : Option (List Json) :=
  match findField (ascii "keyframes") fs with
  | some (.arr xs) => some xs
  | _ => none

/-- Modelled from the spec: the derived deserializers of the three `data`
payloads `RawData<V>` / `DiscreteData<V>` / `CurveData<V>`: optional `node`,
`property` (and `interval` for Raw), required `keyframes`. -/
def trackDataFromJson (tt : TrackType) (vt : ValueType)
    (fs : List (List Nat × Json)) : Option TrackData :=
  match tt with
  | .Raw => do
    let node ← optField jsonString fs (ascii "node")
    let property ← optField jsonString fs (ascii "property")
    let interval ← optField jsonF32 fs (ascii "interval")
    let kfsJson ← keyframesField fs
    let kfs ← kfsJson.mapM (valueFromJson vt)
    pure (.raw node property interval kfs)
  | .Discrete => do
    let node ← optField jsonString fs (ascii "node")
    let property ← optField jsonString fs (ascii "property")
    let kfsJson ← keyframesField fs
    let kfs ← kfsJson.mapM (discreteKFFromJson vt)
    pure (.discrete node property kfs)
  | .Curve => do
    let node ← optField jsonString fs (ascii "node")
    let property ← optField jsonString fs (ascii "property")
    let kfsJson ← keyframesField fs
    let kfs ← kfsJson.mapM (curveKFFromJson vt)
    pure (.curve node property kfs)
  | .Bezier => none

/-- Modelled from the spec: `serde_json::from_value::<Box<Track<X<V>>>>`
(mod.rs `struct Track<T>` with its serde attributes): required `trackType`,
`valueType` tags and a required `data` object holding the keyframe set. -/
def trackFromJsonTyped (tt : TrackType) (vt : ValueType) : Json → Option Track
  | .obj fs => do
    let tt2 ← findField (ascii "trackType") fs >>= jsonString >>= trackTypeFromName
    let vt2 ← findField (ascii "valueType") fs >>= jsonString >>= valueTypeFromName
    let dataJson ← findField (ascii "data") fs
    let dfs ←
      match dataJson with
      | .obj dfs => some dfs
      | _ => none
    let d ← trackDataFromJson tt vt dfs
    pure ⟨tt2, vt2, d⟩
  | _ => none

/-- The per-element closure of the `tracks` branch of `AnimVisitor::visit_map`
(mod.rs lines 335-365): read the `TrackInfo` tag pair, then dispatch on the
track kind and re-parse the same element as the concrete combination;
`TrackType::Bezier` hits `todo!()` — a panic, not an error value. -/
def trackFromValue (j : Json) : DocResult Track :=
  match trackInfoFromJson j with
  | none => .error
  | some (tt, vt) =>
    match tt with
    | .Raw =>
      match trackFromJsonTyped .Raw vt j with
      | some t => .ok t
      | none => .error
    | .Discrete =>
      match trackFromJsonTyped .Discrete vt j with
      | some t => .ok t
      | none => .error
    | .Curve =>
      match trackFromJsonTyped .Curve vt j with
      | some t => .ok t
      | none => .error
    | .Bezier => .panic

/-- The `for track in tracks { output.tracks.push(track?) }` loop: elements
are materialized one by one, the first error or panic aborts. -/
def tracksFromJson : List Json → DocResult (List Track)
  | [] => .ok []
  | j :: rest =>
    match trackFromValue j with
    | .ok t =>
      match tracksFromJson rest with
      | .ok ts => .ok (t :: ts)
      | .error => .error
      | .panic => .panic
    | .error => .error
    | .panic => .panic

/-- The top-level key "name". -/
def keyName : List Nat := ascii "name"

/-- The top-level key "globalDuration". -/
def keyGlobalDuration : List Nat := ascii "globalDuration"

/-- The top-level key "tracks". -/
def keyTracks : List Nat := ascii "tracks"

/-- One entry of the `while let Some(key) = map.next_key()` loop of
`AnimVisitor::visit_map`: "name" expects a string, "globalDuration" a float,
"tracks" an array (each element a track); any other key is ignored
(`IgnoredAny`). -/
def stepField (out : Animation) (k : List Nat) (v : Json) : DocResult Animation :=
  if k = keyName then
    match jsonString v with
    | some s => .ok { out with name := some s }
    | none => .error
  else if k = keyGlobalDuration then
    match jsonF32 v with
    | some bits => .ok { out with globalDuration := some bits }
    | none => .error
  else if k = keyTracks then
    match v with
    | .arr xs =>
      match tracksFromJson xs with
      | .ok ts => .ok { out with tracks := out.tracks ++ ts }
      | .error => .error
      | .panic => .panic
    | _ => .error
  else .ok out

/-- The key loop of `AnimVisitor::visit_map`, folding over the object's
entries in order. -/
def visitFields (out : Animation) : List (List Nat × Json) → DocResult Animation
  | [] => .ok out
  | (k, v) :: rest =>
    match stepField out k v with
    | .ok out1 => visitFields out1 rest
    | .error => .error
    | .panic => .panic

/-- `Animation::default()`. -/
def emptyAnimation : Animation := ⟨none, none, []⟩

/-- `impl Deserialize for Animation` via `AnimVisitor` (`deserialize_any`
with a map visitor: a non-object document is a type error). -/
def animFromJson : Json → DocResult Animation
  | .obj fs => visitFields emptyAnimation fs
  | _ => .error

/-- A minimal document whose single track element names TrackKind `Bezier`. -/
def bezierDoc : Json :=
  .obj [(keyTracks, .arr [.obj [(ascii "trackType", .str (ascii "Bezier")),
    (ascii "valueType", .str (ascii "float"))]])]

/-- `Animation::from_animx`: magic check, version check, track-count varint,
global duration, name, encoding flag check, then the track loop. -/
def fromAnimX : Reader Animation :=
  rbind readString (fun magic =>
  rbind (require (magic = magicBytes) .incorrectHeader) (fun _ =>
  rbind (readWord 4) (fun version =>
  rbind (require (version = 1) .unsupportedVersion) (fun _ =>
  rbind readVarint (fun ntracks =>
  rbind (readWord 4) (fun duration =>
  rbind readString (fun nm =>
  rbind readU8 (fun flag =>
  rbind (require (flag = 0) .unsupportedEncoding) (fun _ =>
  rbind (readCount ntracks readTrack) (fun tks =>
  pureR ⟨some nm, some duration, tks⟩))))))))))

end ResoniteCore

namespace ResoniteCore

theorem and_127_eq_mod (n : Nat) : n &&& 127 = n % 128 := by
  have h := Nat.and_pow_two_sub_one_eq_mod n 7
  norm_num at h
  exact h

theorem shiftRight_7_eq_div (n : Nat) : n >>> 7 = n / 128 := by
  rw [Nat.shiftRight_eq_div_pow]

theorem nat_and_or_distrib_right (a b c : Nat) :
    (a ||| b) &&& c = (a &&& c) ||| (b &&& c) := by
  apply Nat.eq_of_testBit_eq
  intro i
  simp [Nat.testBit_and, Nat.testBit_or, Bool.and_or_distrib_right]

theorem cont_byte_and_128 (n : Nat) : ((n &&& 127) ||| 128) &&& 128 = 128 := by
  rw [nat_and_or_distrib_right, Nat.and_assoc]
  have h0 : (127 : Nat) &&& 128 = 0 := by decide
  have h1 : (128 : Nat) &&& 128 = 128 := by decide
  rw [h0, h1, Nat.and_zero, Nat.zero_or]

theorem cont_byte_and_127 (n : Nat) : ((n &&& 127) ||| 128) &&& 127 = n &&& 127 := by
  rw [nat_and_or_distrib_right, Nat.and_assoc]
  have h0 : (128 : Nat) &&& 127 = 0 := by decide
  have h1 : (127 : Nat) &&& 127 = 127 := by decide
  rw [h0, h1, Nat.or_zero]

theorem small_and_128 (n : Nat) (h : n ≤ 127) : n &&& 128 = 0 := by
  have h1 := Nat.and_two_pow n 7
  norm_num at h1
  have h2 : n.testBit 7 = false :=
    Nat.testBit_lt_two_pow (by norm_num; omega)
  rw [h1, h2]
  simp

/-- Decoding the loop on an encoded value (at any accumulated state) adds the
value at the current shift; stated over the fuelled encoder body. -/
theorem readVarintLoop_writeVarintFuel (fuel : Nat) :
    ∀ (n shift data : Nat) (r : List Nat), n ≤ fuel →
    readVarintLoop shift data (writeVarintFuel fuel n ++ r) = .ok (data + (n <<< shift), r) := by
  induction fuel with
  | zero =>
    intro n shift data r hn
    have h0 : n = 0 := by omega
    subst h0
    simp [writeVarintFuel, readVarintLoop]
  | succ fuel ih =>
    intro n shift data r hn
    rw [writeVarintFuel]
    by_cases h : n > 127
    · simp only [h, if_pos, List.cons_append, readVarintLoop, cont_byte_and_128, beq_self_eq_true,
        if_pos, cont_byte_and_127]
      rw [ih (n >>> 7) (shift + 7) _ r
        (by rw [shiftRight_7_eq_div]; omega)]
      congr 1
      have h1 := and_127_eq_mod n
      have h2 := shiftRight_7_eq_div n
      simp only [Nat.shiftLeft_eq, h1, h2, pow_add]
      have h3 : n % 128 * 2 ^ shift + n / 128 * (2 ^ shift * 2 ^ 7) =
          (n % 128 + n / 128 * 128) * 2 ^ shift := by ring
      rw [Nat.add_assoc, h3, Nat.mod_add_div' n 128]
    · simp only [h, if_neg, List.cons_append, readVarintLoop, not_false_eq_true]
      have hb : ¬ (n &&& 128 == 128) = true := by
        rw [small_and_128 n (by omega)]
        decide
      simp only [hb, if_neg, Bool.false_eq_true, not_false_eq_true, List.nil_append]
      rw [and_127_eq_mod, Nat.mod_eq_of_lt (by omega)]

theorem readVarint_writeVarint (n : Nat) (r : List Nat) :
    readVarint (writeVarint n ++ r) = .ok (n, r) := by
  rw [readVarint, writeVarint, readVarintLoop_writeVarintFuel n n 0 0 r (le_refl n)]
  simp [Nat.shiftLeft_eq]

theorem rbind_ok {α β : Type} {m : Reader α} {f : α → Reader β} {s s1 : List Nat} {a : α}
    (h : m s = .ok (a, s1)) : rbind m f s = f a s1 := by
  simp [rbind, h]

theorem require_true {c : Bool} {e : AnimXError} {s : List Nat} (h : c = true) :
    require c e s = .ok ((), s) := by
  simp [require, h]

theorem readU8_cons (b : Nat) (r : List Nat) : readU8 (b :: r) = .ok (b, r) := rfl

theorem readBytes_append (l r : List Nat) : readBytes l.length (l ++ r) = .ok (l, r) := by
  simp [readBytes, List.take_left, List.drop_left]

theorem readBytes_append_of_length {k : Nat} (l r : List Nat) (h : l.length = k) :
    readBytes k (l ++ r) = .ok (l, r) := by
  subst h
  exact readBytes_append l r

theorem writeWord_length (k w : Nat) : (writeWord k w).length = k := by
  induction k generalizing w with
  | zero => rfl
  | succ k ih => simp [writeWord, ih]

theorem wordOfLe_writeWord (k w : Nat) (h : w < 256 ^ k) : wordOfLe (writeWord k w) = w := by
  induction k generalizing w with
  | zero =>
    simp at h
    simp [writeWord, wordOfLe, h]
  | succ k ih =>
    have hdiv : w / 256 < 256 ^ k := by
      rw [Nat.div_lt_iff_lt_mul (by norm_num)]
      calc w < 256 ^ (k + 1) := h
        _ = 256 ^ k * 256 := by ring
    simp [writeWord, wordOfLe, ih (w / 256) hdiv]
    omega

theorem readWord_append (k w : Nat) (r : List Nat) (h : w < 256 ^ k) :
    readWord k (writeWord k w ++ r) = .ok (w, r) := by
  rw [readWord]
  rw [rbind_ok (readBytes_append_of_length (writeWord k w) r (writeWord_length k w))]
  rw [pureR, wordOfLe_writeWord k w h]

theorem readString_append (s r : List Nat) (h : isValidUtf8 s = true) :
    readString (writeString s ++ r) = .ok (s, r) := by
  rw [readString, writeString, List.append_assoc]
  rw [rbind_ok (readVarint_writeVarint s.length (s ++ r))]
  rw [rbind_ok (readBytes_append s r)]
  rw [rbind_ok (require_true h)]
  rfl

theorem readValue_float (w : Nat) (r : List Nat) (h : w < 256 ^ 4) :
    readValue .Float (writeWord 4 w ++ r) = .ok (.scalar 4 w, r) := by
  rw [readValue]
  rw [rbind_ok (readWord_append 4 w r h)]
  rfl

theorem readCount_float (ks : List Nat) (r : List Nat) (h : ∀ k ∈ ks, k < 256 ^ 4) :
    readCount ks.length (readValue .Float) (ks.flatMap (writeWord 4) ++ r) =
      .ok (ks.map (Value.scalar 4), r) := by
  induction ks with
  | nil => simp [readCount, pureR]
  | cons k ks ih =>
    simp only [List.flatMap_cons, List.length_cons, readCount, List.append_assoc]
    rw [rbind_ok (readValue_float k _ (h k (by simp)))]
    rw [rbind_ok (ih (fun x hx => h x (by simp [hx])))]
    rfl

theorem flatMap_writeValue_scalar (width : Nat) (ks : List Nat) :
    (ks.map (Value.scalar width)).flatMap writeValue = ks.flatMap (writeWord width) := by
  induction ks with
  | nil => rfl
  | cons k ks ih => simp [writeValue, ih]

/-- Reading a well-formed header with track count `n`, duration bit pattern
`dur` and name `nm` hands the remaining stream to the track loop. -/
theorem fromAnimX_header (n dur : Nat) (nm : List Nat) (rest : List Nat)
    (hnm : isValidUtf8 nm = true) (hdur : dur < 256 ^ 4) :
    fromAnimX (writeString magicBytes ++ writeWord 4 1 ++ writeVarint n ++
        writeWord 4 dur ++ writeString nm ++ 0 :: rest) =
      rbind (readCount n readTrack) (fun tks => pureR ⟨some nm, some dur, tks⟩) rest := by
  rw [fromAnimX]
  simp only [List.append_assoc]
  rw [rbind_ok (readString_append magicBytes _ (by decide))]
  rw [rbind_ok (require_true (by decide))]
  rw [rbind_ok (readWord_append 4 1 _ (by norm_num))]
  rw [rbind_ok (require_true (by decide))]
  rw [rbind_ok (readVarint_writeVarint n _)]
  rw [rbind_ok (readWord_append 4 dur _ hdur)]
  rw [rbind_ok (readString_append nm _ hnm)]
  rw [rbind_ok (readU8_cons 0 rest)]
  rw [rbind_ok (require_true (by decide))]

theorem liftOpt_some {α : Type} {o : Option α} {a : α} {e : AnimXError} {s : List Nat}
    (h : o = some a) : liftOpt o e s = .ok (a, s) := by
  simp [liftOpt, h]

/-- Reading back one encoded Raw/Float track record. -/
theorem readTrack_raw_float (nd pr : List Nat) (iv : Nat) (ks : List Nat)
    (hnd : isValidUtf8 nd = true) (hpr : isValidUtf8 pr = true)
    (hiv : iv < 256 ^ 4) (hks : ∀ k ∈ ks, k < 256 ^ 4) :
    readTrack (0 :: 21 :: (writeString nd ++ writeString pr ++ writeVarint ks.length ++
        writeWord 4 iv ++ ks.flatMap (writeWord 4))) =
      .ok (⟨.Raw, .Float, .raw (some nd) (some pr) (some iv) (ks.map (Value.scalar 4))⟩, []) := by
  rw [readTrack]
  rw [rbind_ok (readU8_cons 0 _)]
  rw [rbind_ok (liftOpt_some (show trackTypeOfTag 0 = some .Raw by rfl))]
  rw [rbind_ok (readU8_cons 21 _)]
  rw [rbind_ok (liftOpt_some (show valueTypeOfTag 21 = some .Float by rfl))]
  simp only [List.append_assoc]
  rw [rbind_ok (readString_append nd _ hnd)]
  rw [rbind_ok (readString_append pr _ hpr)]
  rw [rbind_ok (readVarint_writeVarint ks.length _)]
  rw [rbind_ok (readWord_append 4 iv _ hiv)]
  rw [← List.append_nil (ks.flatMap (writeWord 4))]
  rw [rbind_ok (readCount_float ks [] hks)]
  rfl

/-- C3: for every non-negative integer `n` (in particular every value
representable in `usize`), decoding the varint encoding of `n` (followed by any
remaining stream) yields `n` back and consumes exactly the encoding; and the
varint encoding of 300 is the two bytes `[0xAC, 0x02]`. -/
theorem c3_varint_roundtrip (n : Nat) (r : List Nat) :
    readVarint (writeVarint n ++ r) = .ok (n, r) ∧ writeVarint 300 = [0xAC, 0x02] :=
  ⟨readVarint_writeVarint n r, by decide⟩

/-- C2: for every Raw track of ValueKind Float (arbitrary keyframe bit
patterns `ks`, arbitrary present interval `iv`, arbitrary node/property/name
strings and duration), encoding the animation containing it to an AnimX stream
and decoding that stream back succeeds and reproduces the identical keyframe
value sequence and the identical interval (indeed the identical animation). -/
theorem c2_raw_float_roundtrip
    (nm nd pr : List Nat) (dur iv : Nat) (ks : List Nat)
    (hnm : isValidUtf8 nm = true) (hnd : isValidUtf8 nd = true) (hpr : isValidUtf8 pr = true)
    (hdur : dur < 2 ^ 32) (hiv : iv < 2 ^ 32) (hks : ∀ k ∈ ks, k < 2 ^ 32) :
    ∃ s,
      writeAnimation ⟨some nm, some dur,
        [⟨.Raw, .Float, .raw (some nd) (some pr) (some iv) (ks.map (Value.scalar 4))⟩]⟩ =
          some s ∧
      fromAnimX s = .ok
        (⟨some nm, some dur,
          [⟨.Raw, .Float, .raw (some nd) (some pr) (some iv) (ks.map (Value.scalar 4))⟩]⟩, []) := by
  have h256 : (2 : Nat) ^ 32 = 256 ^ 4 := by norm_num
  rw [h256] at hdur hiv hks
  refine ⟨writeString magicBytes ++ writeWord 4 1 ++ writeVarint 1 ++ writeWord 4 dur ++
      writeString nm ++ 0 :: 0 :: 21 ::
      (writeString nd ++ writeString pr ++ writeVarint ks.length ++ writeWord 4 iv ++
        ks.flatMap (writeWord 4)), ?_, ?_⟩
  · simp [writeAnimation, writeTracks, writeTrack, writeTrackData, writeRawData,
      writeOptString, trackTypeDiscr, valueTypeDiscr, flatMap_writeValue_scalar]
  · rw [fromAnimX_header 1 dur nm _ hnm hdur]
    simp only [readCount]
    rw [rbind_ok (show
      rbind readTrack (fun a => rbind (pureR []) fun as => pureR (a :: as))
        (0 :: 21 :: (writeString nd ++ writeString pr ++ writeVarint ks.length ++
          writeWord 4 iv ++ ks.flatMap (writeWord 4))) =
        .ok ([⟨.Raw, .Float, .raw (some nd) (some pr) (some iv) (ks.map (Value.scalar 4))⟩], [])
      by rw [rbind_ok (readTrack_raw_float nd pr iv ks hnd hpr hiv hks)]; rfl)]
    rfl

theorem c2_raw_float_roundtrip_witness :
    (isValidUtf8 [119, 97, 108, 107] = true ∧ (0x3DCCCCCD : Nat) < 2 ^ 32 ∧
      (∀ k ∈ [0, 0x3F800000, 0x40000000], k < 2 ^ 32)) ∧
    (∃ s,
      writeAnimation ⟨some [119, 97, 108, 107], some 0x3FC00000,
        [⟨.Raw, .Float, .raw (some []) (some []) (some 0x3DCCCCCD)
          ([0, 0x3F800000, 0x40000000].map (Value.scalar 4))⟩]⟩ = some s ∧
      fromAnimX s = .ok
        (⟨some [119, 97, 108, 107], some 0x3FC00000,
          [⟨.Raw, .Float, .raw (some []) (some []) (some 0x3DCCCCCD)
            ([0, 0x3F800000, 0x40000000].map (Value.scalar 4))⟩]⟩, [])) :=
  ⟨⟨by decide, by decide, by decide⟩,
    c2_raw_float_roundtrip [119, 97, 108, 107] [] [] 0x3FC00000 0x3DCCCCCD
      [0, 0x3F800000, 0x40000000]
      (by decide) (by decide) (by decide) (by decide) (by decide) (by decide)⟩

/-- C1 (bug evidence): `Track::write` emits `value_type as u8`, the Rust
declaration-order discriminant, under which `Byte` is 4; but the decoder's
`TryFrom<u8>` (the canonical wire ordering of the spec) maps 4 to `Short` and
`Byte` to 0, so the encoder's tag for `Byte` does not decode back to `Byte`,
and decoding the encoder's own output for a one-keyframe Raw/Byte animation
fails instead of reproducing the track. -/
theorem c1_value_tag_mismatch :
    valueTypeDiscr .Byte = 4 ∧
    valueTypeOfTag 4 = some .Short ∧
    valueTypeOfTag (valueTypeDiscr .Byte) ≠ some .Byte ∧
    valueTypeOfTag 0 = some .Byte ∧
    valueTypeOfTag 39 = some .OptString ∧
    (writeAnimation byteTrackAnim).map (fun s => (fromAnimX s).isOk) = some false := by
  decide

theorem and_or_two_cases (n : Nat) : n &&& 2 = 0 ∨ n &&& 2 = 2 := by
  have h := Nat.and_two_pow n 1
  norm_num at h
  rcases Bool.eq_false_or_eq_true (n.testBit 1) with hb | hb <;> rw [hb] at h <;> simp at h <;> omega

theorem curve_foldl_and_one (h0 : Interpolation) (kfs : List CurveKF) :
    ∀ init, init &&& 1 = 1 →
    (kfs.foldl
      (fun info k =>
        (if k.interpolation ≠ h0 then info ||| 1 else info) |||
          (interpDiscr k.interpolation &&& 2))
      init) &&& 1 = 1 := by
  induction kfs with
  | nil => intro init h; exact h
  | cons k kfs ih =>
    intro init h
    rw [List.foldl_cons]
    apply ih
    rw [nat_and_or_distrib_right]
    have h1 : (if k.interpolation ≠ h0 then init ||| 1 else init) &&& 1 = 1 := by
      by_cases hc : k.interpolation ≠ h0
      · rw [if_pos hc, nat_and_or_distrib_right, h]
        decide
      · rw [if_neg hc, h]
    have h2 : interpDiscr k.interpolation &&& 2 &&& 1 = 0 := by
      cases k.interpolation <;> decide
    rw [h1, h2]
    decide

theorem curveInfoByte_and_one (kfs : List CurveKF) : curveInfoByte kfs &&& 1 = 1 :=
  curve_foldl_and_one (curveHeadInterpolation kfs) kfs 1 (by decide)

/-- C5: the curve encoder's info byte always has bit 0 ("per-keyframe
interpolation") set — it is seeded set before the uniformity check — so the
encoder always writes one interpolation-tag byte per frame and the
single-shared-tag wire form is never produced: `writeCurveData` coincides with
its per-keyframe-tags-only variant on every input. -/
theorem c5_per_keyframe_interpolation_always
    (node property : Option (List Nat)) (kfs : List CurveKF) :
    curveInfoByte kfs &&& 1 = 1 ∧
    writeCurveData node property kfs = writeCurveDataPerFrame node property kfs := by
  have h := curveInfoByte_and_one kfs
  refine ⟨h, ?_⟩
  rw [writeCurveData, writeCurveDataPerFrame]
  simp [h]

theorem curve_foldl_and_two (h0 : Interpolation) (kfs : List CurveKF) :
    ∀ init,
    (init &&& 2 = 2 ∨ ∃ k ∈ kfs, interpDiscr k.interpolation &&& 2 = 2) →
    (kfs.foldl
      (fun info k =>
        (if k.interpolation ≠ h0 then info ||| 1 else info) |||
          (interpDiscr k.interpolation &&& 2))
      init) &&& 2 = 2 := by
  induction kfs with
  | nil =>
    intro init h
    rcases h with h | ⟨k, hk, _⟩
    · exact h
    · simp at hk
  | cons k kfs ih =>
    intro init h
    rw [List.foldl_cons]
    have hite : ∀ i : Nat, i &&& 2 = 2 →
        (if k.interpolation ≠ h0 then i ||| 1 else i) &&& 2 = 2 := by
      intro i hi
      by_cases hc : k.interpolation ≠ h0
      · rw [if_pos hc, nat_and_or_distrib_right, hi]
        decide
      · rw [if_neg hc, hi]
    rcases h with h | ⟨k1, hk1, hd⟩
    · apply ih
      left
      rw [nat_and_or_distrib_right, hite init h]
      rcases and_or_two_cases (interpDiscr k.interpolation &&& 2) with h2 | h2 <;> rw [h2] <;> decide
    · rcases List.mem_cons.mp hk1 with rfl | hmem
      · apply ih
        left
        rw [nat_and_or_distrib_right]
        have h2 : interpDiscr k1.interpolation &&& 2 &&& 2 = 2 := by
          rw [Nat.and_assoc]
          simpa using hd
        rw [h2]
        rcases and_or_two_cases (if k1.interpolation ≠ h0 then init ||| 1 else init) with h3 | h3 <;>
          rw [h3] <;> decide
      · exact ih _ (Or.inr ⟨k1, hmem, hd⟩)

theorem curveTangentBytes_none_of_missing (pre post : List CurveKF) (k0 : CurveKF)
    (hk0 : k0.leftTangent = none ∨ k0.rightTangent = none) :
    curveTangentBytes (pre ++ k0 :: post) = none := by
  induction pre with
  | nil =>
    rcases hk0 with h | h
    · simp [curveTangentBytes, h]
    · cases hl : k0.leftTangent <;> simp [curveTangentBytes, h, hl]
  | cons p pre ih =>
    cases hl : p.leftTangent <;> cases hr : p.rightTangent <;>
      simp [curveTangentBytes, hl, hr, ih]

/-- C4 (corrected): encoding a Curve set containing a keyframe that lacks a
tangent component does fail — but only when the tangent block is demanded,
i.e. when some keyframe's interpolation is `Tangent` or `CubicBezier` (which
sets bit 1 of the info byte); the `expect` then panics on the missing tangent
(modelled as `none`). -/
theorem c4_missing_tangent_fails (node property : Option (List Nat))
    (pre post : List CurveKF) (k0 : CurveKF)
    (hk0 : k0.leftTangent = none ∨ k0.rightTangent = none)
    (hdemand : ∃ k ∈ pre ++ k0 :: post, interpDiscr k.interpolation &&& 2 = 2) :
    writeCurveData node property (pre ++ k0 :: post) = none := by
  have h2 : curveInfoByte (pre ++ k0 :: post) &&& 2 = 2 :=
    curve_foldl_and_two (curveHeadInterpolation (pre ++ k0 :: post)) (pre ++ k0 :: post) 1
      (Or.inr hdemand)
  have ht := curveTangentBytes_none_of_missing pre post k0 hk0
  rw [writeCurveData]
  simp [h2, ht]

theorem c4_missing_tangent_fails_witness :
    ((⟨1, Value.scalar 4 6, .Tangent, none, none⟩ : CurveKF).leftTangent = none ∨
      (⟨1, Value.scalar 4 6, .Tangent, none, none⟩ : CurveKF).rightTangent = none) ∧
    (∃ k ∈ ([] : List CurveKF) ++ (⟨1, Value.scalar 4 6, .Tangent, none, none⟩ : CurveKF) ::
        [⟨0, Value.scalar 4 5, .Hold, some (.scalar 4 1), some (.scalar 4 2)⟩],
      interpDiscr k.interpolation &&& 2 = 2) ∧
    writeCurveData none none
      (([] : List CurveKF) ++ (⟨1, Value.scalar 4 6, .Tangent, none, none⟩ : CurveKF) ::
        [⟨0, Value.scalar 4 5, .Hold, some (.scalar 4 1), some (.scalar 4 2)⟩]) = none :=
  ⟨by decide, by decide,
    c4_missing_tangent_fails none none []
      [⟨0, Value.scalar 4 5, .Hold, some (.scalar 4 1), some (.scalar 4 2)⟩]
      ⟨1, Value.scalar 4 6, .Tangent, none, none⟩ (by decide) (by decide)⟩

/-- C4 (counterexample to the claim as stated): in `mixedTangentKfs` exactly
one keyframe (the second) lacks a tangent pair while the other carries one,
yet — all interpolations being `Hold` — the encoder succeeds and silently
drops the present tangent pair instead of failing. -/
theorem c4_missing_tangent_cex :
    (mixedTangentKfs.get ⟨1, by decide⟩).leftTangent = none ∧
    (mixedTangentKfs.get ⟨1, by decide⟩).rightTangent = none ∧
    ((mixedTangentKfs.get ⟨0, by decide⟩).leftTangent.isSome = true ∧
      (mixedTangentKfs.get ⟨0, by decide⟩).rightTangent.isSome = true) ∧
    (writeCurveData none none mixedTangentKfs).isSome = true := by
  decide

/-- C6: a stream with a well-formed header whose first per-track record begins
with a track-type tag byte `b ≥ 3` (in particular `0x04` and every value at or
above the number of defined track kinds) fails decode with
`IncorrectTrackType`, leaving exactly the bytes after that tag byte
unconsumed. -/
theorem c6_unknown_track_tag_rejected (n dur b : Nat) (nm rest : List Nat)
    (hnm : isValidUtf8 nm = true) (hdur : dur < 2 ^ 32) (hb : 3 ≤ b) :
    fromAnimX (writeString magicBytes ++ writeWord 4 1 ++ writeVarint (n + 1) ++
        writeWord 4 dur ++ writeString nm ++ 0 :: b :: rest) =
      .error (.incorrectTrackType, rest) := by
  rw [show (2 : Nat) ^ 32 = 256 ^ 4 by norm_num] at hdur
  rw [fromAnimX_header (n + 1) dur nm _ hnm hdur]
  have htag : trackTypeOfTag b = none := by
    obtain ⟨k, rfl⟩ : ∃ k, b = k + 3 := ⟨b - 3, by omega⟩
    rfl
  have htr : readTrack (b :: rest) = .error (.incorrectTrackType, rest) := by
    rw [readTrack]
    rw [rbind_ok (readU8_cons b rest)]
    simp [rbind, liftOpt, htag]
  simp only [readCount]
  simp [rbind, htr]

theorem c6_unknown_track_tag_rejected_witness :
    (isValidUtf8 [] = true ∧ (0 : Nat) < 2 ^ 32 ∧ (3 : Nat) ≤ 4) ∧
    fromAnimX (writeString magicBytes ++ writeWord 4 1 ++ writeVarint (0 + 1) ++
        writeWord 4 0 ++ writeString [] ++ 0 :: 4 :: [9, 9]) =
      .error (.incorrectTrackType, [9, 9]) :=
  ⟨⟨by decide, by decide, by decide⟩,
    c6_unknown_track_tag_rejected 0 0 4 [] [9, 9] (by decide) (by decide) (by decide)⟩

/-- C7 (counterexample to the claim as stated): the byte 2 is nonzero, yet
`read_bool` decodes it as `false` (the reader accepts only `1` as true). -/
theorem c7_nonzero_bool_cex :
    ¬ ((readBool [2] = .ok (true, [])) ↔ (2 : Nat) ≠ 0) := by
  decide

/-- C7 (corrected): `Bool` encodes as one byte, 1 for true and 0 for false;
on decode a byte is accepted as true exactly when it equals 1 (`buf[0] == 1`),
so nonzero bytes other than 1 decode to `false`. -/
theorem c7_bool_codec (b : Nat) :
    writeValue (.bool true) = [1] ∧ writeValue (.bool false) = [0] ∧
    readBool [b] = .ok (b == 1, []) :=
  ⟨by decide, by decide, rfl⟩

/-- C10: whenever `from_animx` succeeds, the decoded animation carries
`name = Some s` and `global_duration = Some f`: the decoder unconditionally
wraps the header fields in `Some`, so absence cannot be observed after a
binary decode. -/
theorem c10_decoded_header_fields_present (s r : List Nat) (a : Animation)
    (h : fromAnimX s = .ok (a, r)) :
    a.name.isSome = true ∧ a.globalDuration.isSome = true := by
  rw [fromAnimX] at h
  simp only [rbind, require, pureR] at h
  repeat' split at h
  all_goals simp only [Except.ok.injEq, Prod.mk.injEq, reduceCtorEq] at h
  obtain ⟨h1, h2⟩ := h
  subst h1
  exact ⟨rfl, rfl⟩

theorem visitFields_skip (k : List Nat) (v : Json) (post : List (List Nat × Json))
    (h1 : k ≠ keyName) (h2 : k ≠ keyGlobalDuration) (h3 : k ≠ keyTracks) :
    ∀ (pre : List (List Nat × Json)) (out : Animation),
    visitFields out (pre ++ (k, v) :: post) = visitFields out (pre ++ post) := by
  intro pre
  induction pre with
  | nil =>
    intro out
    simp only [List.nil_append, visitFields]
    rw [show stepField out k v = .ok out by simp [stepField, h1, h2, h3]]
  | cons p pre ih =>
    obtain ⟨pk, pv⟩ := p
    intro out
    simp only [List.cons_append, visitFields]
    cases h : stepField out pk pv <;> simp [ih]

/-- C8: the document decoder ignores unrecognized top-level keys: inserting an
extra entry with any unrecognized key (and any value) anywhere among a
document's top-level fields leaves the decoded result unchanged. -/
theorem c8_unknown_key_ignored (pre post : List (List Nat × Json)) (k : List Nat) (v : Json)
    (h1 : k ≠ keyName) (h2 : k ≠ keyGlobalDuration) (h3 : k ≠ keyTracks) :
    animFromJson (.obj (pre ++ (k, v) :: post)) = animFromJson (.obj (pre ++ post)) := by
  simp only [animFromJson]
  exact visitFields_skip k v post h1 h2 h3 pre emptyAnimation

theorem c8_unknown_key_ignored_witness :
    (ascii "foo" ≠ keyName ∧ ascii "foo" ≠ keyGlobalDuration ∧ ascii "foo" ≠ keyTracks) ∧
    animFromJson (.obj ([(keyName, .str (ascii "a"))] ++
        (ascii "foo", .num ⟨some 1, 0x3F800000, 0x3FF0000000000000⟩) :: [])) =
      animFromJson (.obj ([(keyName, .str (ascii "a"))] ++ [])) :=
  ⟨⟨by decide, by decide, by decide⟩,
    c8_unknown_key_ignored [(keyName, .str (ascii "a"))] [] (ascii "foo")
      (.num ⟨some 1, 0x3F800000, 0x3FF0000000000000⟩) (by decide) (by decide) (by decide)⟩

/-- C9 (counterexample to the claim as stated): decoding a document whose
track element names TrackKind Bezier does not produce an error value at all
(there is no `Unimplemented` error kind in the code): it hits `todo!()` and
panics; in particular it also does not silently produce an empty track. -/
theorem c9_bezier_error_value_cex :
    animFromJson bezierDoc = .panic ∧ animFromJson bezierDoc ≠ .error ∧
    animFromJson bezierDoc ≠ .ok emptyAnimation := by
  decide

/-- C9 (corrected): for every document whose tracks array begins with an
element whose tag pair names TrackKind Bezier, document decoding reaches the
`todo!()` arm and panics — it fails loudly rather than silently producing an
empty track, but by panic, not by returning an `Unimplemented` error value. -/
theorem c9_bezier_panics (bezFields : List (List Nat × Json)) (more : List Json)
    (rest : List (List Nat × Json)) (vt : ValueType)
    (hinfo : trackInfoFromJson (.obj bezFields) = some (.Bezier, vt)) :
    animFromJson (.obj ((keyTracks, .arr (.obj bezFields :: more)) :: rest)) = .panic := by
  have htf : trackFromValue (.obj bezFields) = .panic := by
    simp [trackFromValue, hinfo]
  have htracks : tracksFromJson (.obj bezFields :: more) = .panic := by
    simp [tracksFromJson, htf]
  have hstep : stepField emptyAnimation keyTracks (.arr (.obj bezFields :: more)) = .panic := by
    rw [stepField, if_neg (by decide), if_neg (by decide), if_pos rfl]
    simp [htracks]
  simp [animFromJson, visitFields, hstep]

theorem c9_bezier_panics_witness :
    trackInfoFromJson (.obj [(ascii "trackType", .str (ascii "Bezier")),
      (ascii "valueType", .str (ascii "float"))]) = some (.Bezier, .Float) ∧
    animFromJson (.obj ((keyTracks,
      .arr (.obj [(ascii "trackType", .str (ascii "Bezier")),
        (ascii "valueType", .str (ascii "float"))] :: [])) :: [])) = .panic :=
  ⟨by decide,
    c9_bezier_panics [(ascii "trackType", .str (ascii "Bezier")),
      (ascii "valueType", .str (ascii "float"))] [] [] .Float (by decide)⟩

theorem c10_decoded_header_fields_present_witness :
    (fromAnimX [5, 65, 110, 105, 109, 88, 1, 0, 0, 0, 0, 0, 0, 0, 0, 0, 0] =
      .ok (⟨some [], some 0, []⟩, [])) ∧
    ((⟨some [], some 0, []⟩ : Animation).name.isSome = true ∧
      (⟨some [], some 0, []⟩ : Animation).globalDuration.isSome = true) :=
  ⟨by decide,
    c10_decoded_header_fields_present [5, 65, 110, 105, 109, 88, 1, 0, 0, 0, 0, 0, 0, 0, 0, 0, 0]
      [] ⟨some [], some 0, []⟩ (by decide)⟩

end ResoniteCore
